import Mathlib

/-!
Verification of the AlgoTradeX backtesting core: a shallow embedding of
the indicator library (`app/utils/indicators.py`), the strategy signal
generator (`app/services/strategy_engine.py`) and the bar-by-bar trade
simulator with its metrics (`app/services/backtest_engine.py`).

Modelling conventions: float values are rationals (`ℚ`); a pandas `NaN`
is `Option.none`; Python `int` share counts are `ℤ`; timestamps are
integer day numbers, so `(t2 - t1).days` becomes `t2 - t1`.  Comparisons
against `NaN` are `False` in pandas, which the `Option` matches below
reproduce.
-/

namespace AlgoTradeX

/-- One row of the OHLCV DataFrame as consumed by the verified code paths:
only the `time` and `close` columns are ever read by the signal
generators and the simulator. -/
structure Bar where
  time : ℤ
  close : ℚ
  deriving DecidableEq, Repr

/-- Python `int(x)` applied to a float quotient: truncation toward zero,
i.e. T-division of the numerator by the denominator. -/
def ratTrunc (q : ℚ) : ℤ := q.num.tdiv (q.den : ℤ)

/-- pandas `Series.rolling(window).mean()` over a series without missing
values: entry `i` is defined iff `i + 1 ≥ window` observations exist up to
and including `i`, and is then the arithmetic mean of the trailing
`window` values. -/
def rollingMean (xs : List ℚ) (window : ℕ) : List (Option ℚ) :=
  (List.range xs.length).map fun i =>
    if i + 1 < window then none
    else some (((xs.take (i + 1)).drop (i + 1 - window)).sum / (window : ℚ))

namespace Indicators

/-- `Indicators.sma(data, window) = data.rolling(window=window).mean()`. -/
def sma (data : List ℚ) (window : ℕ) : List (Option ℚ) :=
  rollingMean data window

/-- The gain series of `Indicators.rsi`: `delta.where(delta > 0, 0)` for
`delta = data.diff()`.  The leading difference is `NaN`, and pandas
`NaN > 0` is `False`, so `where` replaces it by `0`. -/
def rsiGains (data : List ℚ) : List ℚ :=
  match data with
  | [] => []
  | _ :: rest =>
      0 :: (List.zipWith (fun a b => a - b) rest data).map fun d => if 0 < d then d else 0

/-- The loss series of `Indicators.rsi`: `(-delta).where(delta < 0, 0)`,
with the leading `NaN` difference likewise replaced by `0`. -/
def rsiLosses (data : List ℚ) : List ℚ :=
  match data with
  | [] => []
  | _ :: rest =>
      0 :: (List.zipWith (fun a b => a - b) rest data).map fun d => if d < 0 then -d else 0

/-- `gain = (delta.where(delta > 0, 0)).rolling(window=period).mean()`. -/
def rsiGainAvg (data : List ℚ) (period : ℕ) : List (Option ℚ) :=
  rollingMean (rsiGains data) period

/-- `loss = (-delta.where(delta < 0, 0)).rolling(window=period).mean()`. -/
def rsiLossAvg (data : List ℚ) (period : ℕ) : List (Option ℚ) :=
  rollingMean (rsiLosses data) period

/-- `Indicators.rsi`: `rs = gain / loss`, `rsi = 100 - 100 / (1 + rs)`,
with float semantics at the degenerate points: average loss `0` with a
positive average gain gives `rs = inf`, hence `rsi = 100`; average gain
and loss both `0` gives `rs = NaN`, hence an undefined `rsi`; an undefined
rolling average propagates as undefined. -/
def rsi (data : List ℚ) (period : ℕ) : List (Option ℚ) :=
  List.zipWith
    (fun g l =>
      match g, l with
      | some gv, some lv =>
          if lv = 0 then (if gv = 0 then none else some 100)
          else some (100 - 100 / (1 + gv / lv))
      | _, _ => none)
    (rsiGainAvg data period) (rsiLossAvg data period)

/-- Tail of `Series.ewm(span=span, adjust=False).mean()`: with smoothing
factor `a`, each output is `a * x + (1 - a) * previous`. -/
def emaFrom (a : ℚ) (prev : ℚ) : List ℚ → List ℚ
  | [] => []
  | x :: xs =>
      let e := a * x + (1 - a) * prev
      e :: emaFrom a e xs

/-- `Indicators.ema(data, span) = data.ewm(span=span, adjust=False).mean()`:
seeded by the first value, smoothing factor `2 / (span + 1)`. -/
def ema (data : List ℚ) (span : ℕ) : List ℚ :=
  match data with
  | [] => []
  | x :: xs => x :: emaFrom (2 / ((span : ℚ) + 1)) x xs

/-- MACD line: `ema(data, fast) - ema(data, slow)`. -/
def macdLine (data : List ℚ) (fast slow : ℕ) : List ℚ :=
  List.zipWith (fun a b => a - b) (ema data fast) (ema data slow)

/-- MACD signal line: `ema(macd_line, signal)`. -/
def macdSignalLine (data : List ℚ) (fast slow sp : ℕ) : List ℚ :=
  ema (macdLine data fast slow) sp

end Indicators

/-- Strategy parameters with the defaults the source resolves through
`self.parameters.get(key, default)`. -/
structure Params where
  short_window : ℕ := 50
  long_window : ℕ := 200
  period : ℕ := 14
  oversold : ℚ := 30
  overbought : ℚ := 70
  fast : ℕ := 12
  slow : ℕ := 26
  signal_period : ℕ := 9
  rsi_period : ℕ := 14
  rsi_overbought : ℚ := 70
  deriving DecidableEq, Repr

/-- Position column of `_ma_crossover_strategy`: initialized to `0`, set to
`1` on rows where `sma_short > sma_long` (a comparison against an undefined
warm-up value is `False`, leaving `0`). -/
def maCrossoverPositions (closes : List ℚ) (shortW longW : ℕ) : List ℤ :=
  List.zipWith
    (fun s l =>
      match s, l with
      | some sv, some lv => if lv < sv then 1 else 0
      | _, _ => 0)
    (Indicators.sma closes shortW) (Indicators.sma closes longW)

/-- Position column of `_rsi_strategy`: initialized to `0`, set to `1`
where `rsi < oversold`, then set to `0` where `rsi > overbought` (the
second assignment wins on rows matched by both).  A row with undefined
`rsi` keeps the initial `0`. -/
def rsiPositions (closes : List ℚ) (period : ℕ) (oversold overbought : ℚ) : List ℤ :=
  (Indicators.rsi closes period).map fun r =>
    match r with
    | some rv => if overbought < rv then 0 else if rv < oversold then 1 else 0
    | none => 0

/-- Position column of `_macd_strategy`: `1` where `macd > macd_signal`. -/
def macdPositions (closes : List ℚ) (fast slow sp : ℕ) : List ℤ :=
  List.zipWith (fun m s => if s < m then 1 else 0)
    (Indicators.macdLine closes fast slow) (Indicators.macdSignalLine closes fast slow sp)

/-- Position column of `_combined_strategy`: `1` exactly where
`ma_bullish & rsi_ok & macd_bullish` all hold; the MACD pair uses the
default periods `12/26/9` as in the source call `Indicators.macd(df['close'])`. -/
def combinedPositions (closes : List ℚ) (shortW longW rsiPeriod : ℕ)
    (rsiOverbought : ℚ) : List ℤ :=
  let maB := List.zipWith
    (fun s l =>
      match s, l with
      | some sv, some lv => decide (lv < sv)
      | _, _ => false)
    (Indicators.sma closes shortW) (Indicators.sma closes longW)
  let rsiOk := (Indicators.rsi closes rsiPeriod).map fun r =>
    match r with
    | some rv => decide (rv < rsiOverbought)
    | none => false
  let macdB := List.zipWith (fun m s => decide (s < m))
    (Indicators.macdLine closes 12 26) (Indicators.macdSignalLine closes 12 26 9)
  List.zipWith (fun a b => if a && b then (1 : ℤ) else 0)
    (List.zipWith (fun a b => a && b) maB rsiOk) macdB

/-- `df['position'].diff()`: `NaN` (modelled `none`) at index `0`, and
`position[i] - position[i-1]` afterwards. -/
def positionDiff (pos : List ℤ) : List (Option ℤ) :=
  (List.range pos.length).map fun i =>
    match i with
    | 0 => none
    | j + 1 => some (pos.getD (j + 1) 0 - pos.getD j 0)

/-- One row of the signals DataFrame handed to `_simulate_trading`: the
price columns plus the `signal` column produced by `diff()`. -/
structure SigRow where
  time : ℤ
  close : ℚ
  signal : Option ℤ
  deriving DecidableEq, Repr

/-- `StrategyEngine.generate_signals`: dispatch on the strategy-type
string; an unknown type raises `ValueError("Unknown strategy type: ...")`,
modelled as `Except.error`. -/
def generateSignals (strategy_type : String) (p : Params) (bars : List Bar) :
    Except String (List SigRow) :=
  let closes := bars.map Bar.close
  let mk : List ℤ → List SigRow := fun pos =>
    List.zipWith (fun (b : Bar) s => ⟨b.time, b.close, s⟩) bars (positionDiff pos)
  if strategy_type = "ma_crossover" then
    .ok (mk (maCrossoverPositions closes p.short_window p.long_window))
  else if strategy_type = "rsi" then
    .ok (mk (rsiPositions closes p.period p.oversold p.overbought))
  else if strategy_type = "macd" then
    .ok (mk (macdPositions closes p.fast p.slow p.signal_period))
  else if strategy_type = "combined" then
    .ok (mk (combinedPositions closes p.short_window p.long_window p.rsi_period p.rsi_overbought))
  else
    .error ("Unknown strategy type: " ++ strategy_type)

/-- The `current_position` dict held by `_simulate_trading` while a
position is open. -/
structure OpenPosition where
  entry_date : ℤ
  entry_price : ℚ
  quantity : ℤ
  transaction_cost : ℚ
  deriving DecidableEq, Repr

/-- Reason recorded on a trade when it is closed. -/
inductive ExitReason where
  | signal
  | stop_loss
  | end_of_period
  deriving DecidableEq, Repr

/-- One element of the `trades` list emitted by `_simulate_trading`. -/
structure TradeRecord where
  trade_type : String := "BUY"
  entry_date : ℤ
  entry_price : ℚ
  exit_date : ℤ
  exit_price : ℚ
  quantity : ℤ
  transaction_cost : ℚ
  pnl : ℚ
  pnl_percentage : ℚ
  hold_period_days : ℤ
  exit_reason : ExitReason
  deriving DecidableEq, Repr

/-- One element of the `portfolio_values` list recorded after each bar. -/
structure EquityPoint where
  time : ℤ
  cash : ℚ
  holdings : ℚ
  total : ℚ
  deriving DecidableEq, Repr

/-- The mutable state of `_simulate_trading`: cash, share count, the open
position, and the two output lists accumulated so far. -/
structure SimState where
  cash : ℚ
  shares : ℤ
  current_position : Option OpenPosition
  trades : List TradeRecord
  portfolio : List EquityPoint
  deriving DecidableEq, Repr

/-- Initial state of the simulation loop. -/
def initState (initial_capital : ℚ) : SimState :=
  { cash := initial_capital, shares := 0, current_position := none,
    trades := [], portfolio := [] }

/-- Buy branch (`signal == 1 and shares == 0`): invest
`cash * position_size`, price each share at `close * (1 + tc)`, floor the
share count to an integer; a non-positive count is a no-op. -/
def buyFill (tc psize : ℚ) (t : ℤ) (c : ℚ) (s : SimState) : SimState :=
  let capitalToUse := s.cash * psize
  let costPerShare := c * (1 + tc)
  let sharesToBuy : ℤ := ratTrunc (capitalToUse / costPerShare)
  if 0 < sharesToBuy then
    { s with
        cash := s.cash - (sharesToBuy : ℚ) * costPerShare
        shares := sharesToBuy
        current_position := some
          { entry_date := t, entry_price := c, quantity := sharesToBuy,
            transaction_cost := (sharesToBuy : ℚ) * costPerShare - (sharesToBuy : ℚ) * c } }
  else s

/-- The TradeRecord appended by the sell branch: exit at the bar's close,
total transaction cost = entry-side cost + exit-side cost,
`pnl = (exit_value - entry_value) - total_costs`, and the exit reason
re-derives the stop-loss condition from the position, as the source does. -/
def sellTrade (tc sl : ℚ) (t : ℤ) (c : ℚ) (p : OpenPosition) (shares : ℤ) : TradeRecord :=
  let totalProceeds := (shares : ℚ) * (c * (1 - tc))
  let exitTc := (shares : ℚ) * c - totalProceeds
  let entryValue := (p.quantity : ℚ) * p.entry_price
  let exitValue := (shares : ℚ) * c
  let totalCosts := p.transaction_cost + exitTc
  let pnl := exitValue - entryValue - totalCosts
  { entry_date := p.entry_date, entry_price := p.entry_price,
    exit_date := t, exit_price := c, quantity := shares,
    transaction_cost := totalCosts, pnl := pnl,
    pnl_percentage := pnl / entryValue,
    hold_period_days := t - p.entry_date,
    exit_reason :=
      if 0 < sl ∧ sl ≤ (p.entry_price - c) / p.entry_price then ExitReason.stop_loss
      else ExitReason.signal }

/-- Sell branch (`signal == -1 and shares > 0`): liquidate all shares at
`close * (1 - tc)`, append the TradeRecord, and clear the position.  The
`none` arm is unreachable in reachable states (the source would raise a
`TypeError` subscripting `None` there). -/
def sellFill (tc sl : ℚ) (t : ℤ) (c : ℚ) (s : SimState) : SimState :=
  match s.current_position with
  | none => s
  | some p =>
      { s with
          cash := s.cash + (s.shares : ℚ) * (c * (1 - tc))
          shares := 0
          current_position := none
          trades := s.trades ++ [sellTrade tc sl t c p s.shares] }

/-- Equity recording at the end of each loop body: the point reflects the
post-fill `cash` and `shares` of the bar. -/
def recordEquity (t : ℤ) (c : ℚ) (s : SimState) : SimState :=
  { s with
      portfolio := s.portfolio ++ [{
        time := t, cash := s.cash,
        holdings := (s.shares : ℚ) * c,
        total := s.cash + (s.shares : ℚ) * c }] }

/-- The stop-loss check at the top of the loop body: while a position is
open and `stop_loss > 0`, a drawdown of at least `stop_loss` from the
entry price overrides the bar's signal to `-1`. -/
def effSignal (sl : ℚ) (r : SigRow) (s : SimState) : Option ℤ :=
  match s.current_position with
  | some p =>
      if 0 < sl ∧ sl ≤ (p.entry_price - r.close) / p.entry_price then some (-1)
      else r.signal
  | none => r.signal

/-- The `if signal == 1 and shares == 0 / elif signal == -1 and shares > 0`
branch pair, applied to the (possibly stop-loss-overridden) signal. -/
def fillPhase (tc psize sl : ℚ) (r : SigRow) (s : SimState) : SimState :=
  if effSignal sl r s = some 1 ∧ s.shares = 0 then buyFill tc psize r.time r.close s
  else if effSignal sl r s = some (-1) ∧ 0 < s.shares then sellFill tc sl r.time r.close s
  else s

/-- One iteration of the `for idx, row in df.iterrows()` loop of
`_simulate_trading`: the stop-loss check first (overriding the bar's
signal to `-1` when it fires), then the buy / sell branches, then the
equity-point append. -/
def stepBar (tc psize sl : ℚ) (r : SigRow) (s : SimState) : SimState :=
  recordEquity r.time r.close (fillPhase tc psize sl r s)

/-- The whole `for` loop of `_simulate_trading`. -/
def runLoop (tc psize sl : ℚ) (rows : List SigRow) (s : SimState) : SimState :=
  rows.foldl (fun st r => stepBar tc psize sl r st) s

/-- The TradeRecord appended by the end-of-period liquidation: it records
only the ENTRY-side transaction cost, and its pnl subtracts only that
entry-side cost (the exit-side cost is not recorded on the trade). -/
def endOfPeriodTrade (b : SigRow) (p : OpenPosition) (shares : ℤ) : TradeRecord :=
  let entryValue := (p.quantity : ℚ) * p.entry_price
  let exitValue := (shares : ℚ) * b.close
  let pnl := exitValue - entryValue - p.transaction_cost
  { entry_date := p.entry_date, entry_price := p.entry_price,
    exit_date := b.time, exit_price := b.close, quantity := shares,
    transaction_cost := p.transaction_cost, pnl := pnl,
    pnl_percentage := pnl / entryValue,
    hold_period_days := b.time - p.entry_date,
    exit_reason := ExitReason.end_of_period }

/-- The `if shares > 0:` block after the loop: close any open position at
the last bar's close with `exit_reason = 'end_of_period'` and credit the
proceeds net of the exit-side cost.  Mirroring the source, `shares` and
`current_position` are NOT reset here; only `cash` and `trades` change. -/
def closeEndOfPeriod (tc : ℚ) (rows : List SigRow) (s : SimState) : SimState :=
  if 0 < s.shares then
    match s.current_position, rows.getLast? with
    | some p, some b =>
        { s with
            cash := s.cash + (s.shares : ℚ) * b.close * (1 - tc)
            trades := s.trades ++ [endOfPeriodTrade b p s.shares] }
    | _, _ => s
  else s

/-- `BacktestEngine._simulate_trading` (state part): run the loop from the
initial state, then close any open position at the end. -/
def simulateTrading (tc initial_capital psize sl : ℚ) (rows : List SigRow) : SimState :=
  closeEndOfPeriod tc rows (runLoop tc psize sl rows (initState initial_capital))

/-- `Series.pct_change()` on the equity totals: undefined at index `0`;
afterwards the simple return `x_i / x_{i-1} - 1`.  A zero previous value
yields a non-finite float, modelled as undefined. -/
def pctChange (xs : List ℚ) : List (Option ℚ) :=
  (List.range xs.length).map fun i =>
    match i with
    | 0 => none
    | j + 1 =>
        let prev := xs.getD j 0
        if prev = 0 then none else some (xs.getD (j + 1) 0 / prev - 1)

/-- Defined entries of a pandas series. -/
def validVals (xs : List (Option ℚ)) : List ℚ := xs.filterMap id

/-- `Series.mean()` with the pandas default `skipna=True`: mean of the
defined entries, undefined when there are none. -/
def seriesMean (xs : List (Option ℚ)) : Option ℚ :=
  let v := validVals xs
  if v.length = 0 then none else some (v.sum / (v.length : ℚ))

/-- Sample variance (`ddof=1`) of the defined entries: undefined with
fewer than two of them, as pandas `Series.std()` is `NaN` there. -/
def seriesVar (xs : List (Option ℚ)) : Option ℚ :=
  let v := validVals xs
  if v.length < 2 then none
  else
    let m := v.sum / (v.length : ℚ)
    some ((v.map fun x => (x - m) ^ 2).sum / ((v.length : ℚ) - 1))

/-- `Series.std()`: the square root of the sample variance.  The
square-root routine is abstracted as `sqrtFn` (a rational stand-in for
the float `np.sqrt`); only the definedness and sign of the result matter
for the verified properties. -/
def seriesStd (sqrtFn : ℚ → ℚ) (xs : List (Option ℚ)) : Option ℚ :=
  (seriesVar xs).map sqrtFn

/-- Sharpe ratio of `_calculate_metrics`:
`(mean_return / std_return) * np.sqrt(252) if std_return > 0 else 0`,
over the `pct_change` of the equity totals.  `sqrtFn` abstracts `np.sqrt`. -/
def sharpeRatio (sqrtFn : ℚ → ℚ) (totals : List ℚ) : ℚ :=
  let rets := pctChange totals
  match seriesMean rets, seriesStd sqrtFn rets with
  | some m, some sd => if 0 < sd then m / sd * sqrtFn 252 else 0
  | _, _ => 0

/-- `total_return = (final_value - initial_capital) / initial_capital`
with `final_value = portfolio_df['total'].iloc[-1]`. -/
def totalReturn (initial_capital : ℚ) (totals : List ℚ) : ℚ :=
  (totals.getLast?.getD 0 - initial_capital) / initial_capital

/-- Result record of `BacktestEngine._calculate_trade_stats`. -/
structure TradeStats where
  total_trades : ℕ
  winning_trades : ℕ
  losing_trades : ℕ
  win_rate : ℚ
  avg_win : ℚ
  avg_loss : ℚ
  profit_factor : ℚ
  deriving DecidableEq, Repr

/-- `BacktestEngine._calculate_trade_stats`: all stats are `0` for an
empty trade list; otherwise winners have `pnl > 0`, losers `pnl < 0`,
`avg_win`/`avg_loss` guard their empty cases, and `profit_factor` guards
`total_losses == 0`.  (The `if trades else 0` guard on `win_rate` is
vacuous on the nonempty branch.) -/
def calculateTradeStats (trades : List TradeRecord) : TradeStats :=
  if trades.isEmpty then ⟨0, 0, 0, 0, 0, 0, 0⟩
  else
    let winning := trades.filter fun t => 0 < t.pnl
    let losing := trades.filter fun t => t.pnl < 0
    let totalWins := (winning.map TradeRecord.pnl).sum
    let totalLosses := |(losing.map TradeRecord.pnl).sum|
    { total_trades := trades.length
      winning_trades := winning.length
      losing_trades := losing.length
      win_rate := (winning.length : ℚ) / (trades.length : ℚ)
      avg_win := if winning.isEmpty then 0 else totalWins / (winning.length : ℚ)
      avg_loss := if losing.isEmpty then 0 else totalLosses / (losing.length : ℚ)
      profit_factor := if 0 < totalLosses then totalWins / totalLosses else 0 }

/-- The strategy record as consumed by `run_backtest`: the type string,
the parameters, and the risk parameters already resolved with the source
defaults (`position_size` 0.95, `stop_loss` 0). -/
structure StrategyRow where
  strategy_type : String
  parameters : Params := {}
  position_size : ℚ := 0.95
  stop_loss : ℚ := 0
  deriving Repr

/-- Steps 1-5 of `BacktestEngine.run_backtest`: look up the strategy, look
up the stock, require a nonempty price window, generate signals, then run
the simulation.  This is the complete validation surface on the path to
`_simulate_trading`; in particular no check of `initial_capital` exists
anywhere on it. -/
def runBacktest (tc : ℚ) (strategy : Option StrategyRow) (stockFound : Bool)
    (bars : List Bar) (initial_capital : ℚ) : Except String SimState :=
  match strategy with
  | none => .error "Strategy not found"
  | some strat =>
      if !stockFound then .error "Stock not found"
      else if bars.isEmpty then .error "No data found"
      else
        match generateSignals strat.strategy_type strat.parameters bars with
        | .error e => .error e
        | .ok rows =>
            .ok (simulateTrading tc initial_capital strat.position_size strat.stop_loss rows)

/-! ### Basic lemmas about the simulator -/

theorem ratTrunc_eq_floor {q : ℚ} (h : 0 ≤ q) : ratTrunc q = ⌊q⌋ := by
  obtain ⟨m, hm⟩ := Int.eq_ofNat_of_zero_le (Rat.num_nonneg.mpr h)
  rw [Rat.floor_def]
  unfold ratTrunc
  rw [hm]
  rfl

theorem ratTrunc_le_self {q : ℚ} (h : 0 ≤ q) : (ratTrunc q : ℚ) ≤ q := by
  rw [ratTrunc_eq_floor h]
  exact Int.floor_le q

theorem buyFill_portfolio (tc psize : ℚ) (t : ℤ) (c : ℚ) (s : SimState) :
    (buyFill tc psize t c s).portfolio = s.portfolio := by
  simp only [buyFill]
  split <;> rfl

theorem sellFill_portfolio (tc sl : ℚ) (t : ℤ) (c : ℚ) (s : SimState) :
    (sellFill tc sl t c s).portfolio = s.portfolio := by
  cases hcp : s.current_position <;> simp [sellFill, hcp]

theorem fillPhase_portfolio (tc psize sl : ℚ) (r : SigRow) (s : SimState) :
    (fillPhase tc psize sl r s).portfolio = s.portfolio := by
  unfold fillPhase
  split_ifs <;> simp [buyFill_portfolio, sellFill_portfolio]

theorem stepBar_portfolio (tc psize sl : ℚ) (r : SigRow) (s : SimState) :
    (stepBar tc psize sl r s).portfolio = s.portfolio ++
      [{ time := r.time, cash := (stepBar tc psize sl r s).cash,
         holdings := ((stepBar tc psize sl r s).shares : ℚ) * r.close,
         total := (stepBar tc psize sl r s).cash
           + ((stepBar tc psize sl r s).shares : ℚ) * r.close }] := by
  simp only [stepBar, recordEquity, fillPhase_portfolio]

theorem stepBar_trades (tc psize sl : ℚ) (r : SigRow) (s : SimState) :
    (stepBar tc psize sl r s).trades = (fillPhase tc psize sl r s).trades := rfl

theorem stepBar_cash (tc psize sl : ℚ) (r : SigRow) (s : SimState) :
    (stepBar tc psize sl r s).cash = (fillPhase tc psize sl r s).cash := rfl

theorem stepBar_shares (tc psize sl : ℚ) (r : SigRow) (s : SimState) :
    (stepBar tc psize sl r s).shares = (fillPhase tc psize sl r s).shares := rfl

theorem stepBar_current_position (tc psize sl : ℚ) (r : SigRow) (s : SimState) :
    (stepBar tc psize sl r s).current_position
      = (fillPhase tc psize sl r s).current_position := rfl

/-- Structural invariant of the loop state: the share count is
nonnegative, and `current_position` is held exactly while `shares > 0`,
with a recorded quantity equal to the held share count. -/
def PosInv (s : SimState) : Prop :=
  0 ≤ s.shares ∧
  (s.current_position = none → s.shares = 0) ∧
  (∀ p, s.current_position = some p → p.quantity = s.shares ∧ 0 < s.shares)

theorem posInv_initState (c : ℚ) : PosInv (initState c) := by
  refine ⟨le_refl 0, fun _ => rfl, fun p h => ?_⟩
  simp [initState] at h

theorem posInv_buyFill (tc psize : ℚ) (t : ℤ) (c : ℚ) (s : SimState) (h : PosInv s) :
    PosInv (buyFill tc psize t c s) := by
  simp only [buyFill]
  split_ifs with hq
  · refine ⟨le_of_lt hq, fun hnone => ?_, fun p' hp' => ?_⟩
    · simp at hnone
    · simp only [Option.some.injEq] at hp'
      subst hp'
      exact ⟨rfl, hq⟩
  · exact h

theorem posInv_sellFill (tc sl : ℚ) (t : ℤ) (c : ℚ) (s : SimState) (h : PosInv s) :
    PosInv (sellFill tc sl t c s) := by
  cases hcp : s.current_position with
  | none => simpa [sellFill, hcp] using h
  | some p =>
      simp only [sellFill, hcp]
      refine ⟨le_refl 0, fun _ => rfl, fun p' hp' => ?_⟩
      simp at hp'

theorem posInv_fillPhase (tc psize sl : ℚ) (r : SigRow) (s : SimState) (h : PosInv s) :
    PosInv (fillPhase tc psize sl r s) := by
  unfold fillPhase
  split_ifs
  · exact posInv_buyFill tc psize r.time r.close s h
  · exact posInv_sellFill tc sl r.time r.close s h
  · exact h

theorem posInv_stepBar (tc psize sl : ℚ) (r : SigRow) (s : SimState) (h : PosInv s) :
    PosInv (stepBar tc psize sl r s) :=
  posInv_fillPhase tc psize sl r s h

theorem posInv_runLoop (tc psize sl : ℚ) (rows : List SigRow) (s : SimState) (h : PosInv s) :
    PosInv (runLoop tc psize sl rows s) := by
  induction rows generalizing s with
  | nil => exact h
  | cons r rest ih => exact ih _ (posInv_stepBar tc psize sl r s h)

/-- C5: while a position is open, a loss of at least `stop_loss > 0` from
the entry price makes the stop-loss check (which runs before the ordinary
signal check) override the bar's signal to `-1`: the position is sold at
that bar's close and the emitted trade carries `exit_reason = stop_loss`,
whatever the bar's own signal was — including a coincident sell signal. -/
theorem C5_stop_loss_overrides_signal (tc psize sl : ℚ) (r : SigRow) (s : SimState)
    (p : OpenPosition) (hp : s.current_position = some p) (hsh : 0 < s.shares)
    (hsl : 0 < sl) (hloss : sl ≤ (p.entry_price - r.close) / p.entry_price) :
    ∃ tr : TradeRecord,
      (stepBar tc psize sl r s).trades = s.trades ++ [tr] ∧
      tr.exit_reason = ExitReason.stop_loss ∧
      tr.exit_price = r.close ∧ tr.exit_date = r.time ∧ tr.quantity = s.shares ∧
      (stepBar tc psize sl r s).shares = 0 ∧
      (stepBar tc psize sl r s).current_position = none ∧
      (stepBar tc psize sl r s).cash = s.cash + (s.shares : ℚ) * (r.close * (1 - tc)) := by
  have hsig : effSignal sl r s = some (-1) := by
    simp [effSignal, hp, hsl, hloss]
  have hnotbuy : ¬ (effSignal sl r s = some 1 ∧ s.shares = 0) := by
    rw [hsig]
    rintro ⟨h1, -⟩
    simp at h1
  have hfill : fillPhase tc psize sl r s = sellFill tc sl r.time r.close s := by
    unfold fillPhase
    rw [if_neg hnotbuy, if_pos ⟨hsig, hsh⟩]
  refine ⟨sellTrade tc sl r.time r.close p s.shares, ?_, ?_, rfl, rfl, rfl, ?_, ?_, ?_⟩
  · rw [stepBar_trades, hfill]
    simp only [sellFill, hp]
  · unfold sellTrade
    exact if_pos ⟨hsl, hloss⟩
  · rw [stepBar_shares, hfill]
    simp only [sellFill, hp]
  · rw [stepBar_current_position, hfill]
    simp only [sellFill, hp]
  · rw [stepBar_cash, hfill]
    simp only [sellFill, hp]

/-- Witness for C5 at a concrete open position: entry 100, bar close 90,
stop-loss 5%, with a coincident ordinary sell signal on the bar. -/
theorem C5_stop_loss_overrides_signal_witness :
    ∃ tr : TradeRecord,
      (stepBar 0 (19/20) (1/20) { time := 1, close := 90, signal := some (-1) }
        { cash := 0, shares := 1,
          current_position := some { entry_date := 0, entry_price := 100, quantity := 1,
                                     transaction_cost := 0 },
          trades := [], portfolio := [] }).trades = [] ++ [tr] ∧
      tr.exit_reason = ExitReason.stop_loss ∧
      tr.exit_price = 90 ∧ tr.exit_date = 1 ∧ tr.quantity = 1 ∧
      (stepBar 0 (19/20) (1/20) { time := 1, close := 90, signal := some (-1) }
        { cash := 0, shares := 1,
          current_position := some { entry_date := 0, entry_price := 100, quantity := 1,
                                     transaction_cost := 0 },
          trades := [], portfolio := [] }).shares = 0 ∧
      (stepBar 0 (19/20) (1/20) { time := 1, close := 90, signal := some (-1) }
        { cash := 0, shares := 1,
          current_position := some { entry_date := 0, entry_price := 100, quantity := 1,
                                     transaction_cost := 0 },
          trades := [], portfolio := [] }).current_position = none ∧
      (stepBar 0 (19/20) (1/20) { time := 1, close := 90, signal := some (-1) }
        { cash := 0, shares := 1,
          current_position := some { entry_date := 0, entry_price := 100, quantity := 1,
                                     transaction_cost := 0 },
          trades := [], portfolio := [] }).cash = 0 + ((1 : ℤ) : ℚ) * (90 * (1 - 0)) :=
  C5_stop_loss_overrides_signal 0 (19/20) (1/20)
    { time := 1, close := 90, signal := some (-1) }
    { cash := 0, shares := 1,
      current_position := some { entry_date := 0, entry_price := 100, quantity := 1,
                                 transaction_cost := 0 },
      trades := [], portfolio := [] }
    { entry_date := 0, entry_price := 100, quantity := 1, transaction_cost := 0 }
    rfl (by decide) (by norm_num) (by norm_num)

/-- C10: a forced end-of-period liquidation with transaction-cost rate
`tc > 0` credits cash net of the exit-side cost, yet the emitted trade
records only the entry-side cost and its pnl subtracts only that
entry-side cost, so the recorded pnl exceeds the cash change attributable
to the trade by exactly `shares × close × tc > 0`. -/
theorem C10_end_liquidation_entry_cost_only (tc : ℚ) (rows : List SigRow) (s : SimState)
    (p : OpenPosition) (b : SigRow)
    (hp : s.current_position = some p) (hq : p.quantity = s.shares) (hsh : 0 < s.shares)
    (hb : rows.getLast? = some b) (htc : 0 < tc) (hcl : 0 < b.close) :
    ∃ tr : TradeRecord,
      (closeEndOfPeriod tc rows s).trades = s.trades ++ [tr] ∧
      tr.exit_reason = ExitReason.end_of_period ∧
      tr.transaction_cost = p.transaction_cost ∧
      tr.pnl = (s.shares : ℚ) * b.close - (s.shares : ℚ) * p.entry_price - p.transaction_cost ∧
      (closeEndOfPeriod tc rows s).cash = s.cash + (s.shares : ℚ) * b.close * (1 - tc) ∧
      tr.pnl - (((closeEndOfPeriod tc rows s).cash - s.cash)
          - ((s.shares : ℚ) * p.entry_price + p.transaction_cost))
        = (s.shares : ℚ) * b.close * tc ∧
      0 < (s.shares : ℚ) * b.close * tc := by
  have hshpos : (0 : ℚ) < (s.shares : ℚ) := by exact_mod_cast hsh
  have hstate : closeEndOfPeriod tc rows s =
      { s with cash := s.cash + (s.shares : ℚ) * b.close * (1 - tc)
             , trades := s.trades ++ [endOfPeriodTrade b p s.shares] } := by
    unfold closeEndOfPeriod
    rw [if_pos hsh, hp, hb]
  refine ⟨endOfPeriodTrade b p s.shares, ?_, rfl, rfl, ?_, ?_, ?_, ?_⟩
  · rw [hstate]
  · unfold endOfPeriodTrade
    rw [hq]
  · rw [hstate]
  · rw [hstate]
    unfold endOfPeriodTrade
    rw [hq]
    ring
  · exact mul_pos (mul_pos hshpos hcl) htc

/-- Witness for C10: 2 shares entered at 40 (entry cost 1), liquidated at
a final close of 50 with a 10% transaction-cost rate. -/
theorem C10_end_liquidation_entry_cost_only_witness :
    ∃ tr : TradeRecord,
      (closeEndOfPeriod (1/10) [{ time := 5, close := 50, signal := none }]
        { cash := 10, shares := 2,
          current_position := some { entry_date := 0, entry_price := 40, quantity := 2,
                                     transaction_cost := 1 },
          trades := [], portfolio := [] }).trades = [] ++ [tr] ∧
      tr.exit_reason = ExitReason.end_of_period ∧
      tr.transaction_cost = 1 ∧
      tr.pnl = ((2 : ℤ) : ℚ) * 50 - ((2 : ℤ) : ℚ) * 40 - 1 ∧
      (closeEndOfPeriod (1/10) [{ time := 5, close := 50, signal := none }]
        { cash := 10, shares := 2,
          current_position := some { entry_date := 0, entry_price := 40, quantity := 2,
                                     transaction_cost := 1 },
          trades := [], portfolio := [] }).cash = 10 + ((2 : ℤ) : ℚ) * 50 * (1 - 1/10) ∧
      tr.pnl - (((closeEndOfPeriod (1/10) [{ time := 5, close := 50, signal := none }]
        { cash := 10, shares := 2,
          current_position := some { entry_date := 0, entry_price := 40, quantity := 2,
                                     transaction_cost := 1 },
          trades := [], portfolio := [] }).cash - 10)
          - (((2 : ℤ) : ℚ) * 40 + 1))
        = ((2 : ℤ) : ℚ) * 50 * (1/10) ∧
      0 < ((2 : ℤ) : ℚ) * 50 * (1/10) :=
  C10_end_liquidation_entry_cost_only (1/10) [{ time := 5, close := 50, signal := none }]
    { cash := 10, shares := 2,
      current_position := some { entry_date := 0, entry_price := 40, quantity := 2,
                                 transaction_cost := 1 },
      trades := [], portfolio := [] }
    { entry_date := 0, entry_price := 40, quantity := 2, transaction_cost := 1 }
    { time := 5, close := 50, signal := none }
    rfl rfl (by decide) rfl (by norm_num) (by norm_num)

/-- C1 counterexample: a 2-bar run that buys at the first bar and holds
leaves the position open after the last bar; the end_of_period trade is
emitted, but the final simulator state is NOT flat — `shares = 1` and the
OpenPosition survives the run. -/
theorem C1_closure_counterexample :
    (runLoop 0 1 0 [{ time := 0, close := 100, signal := some 1 },
        { time := 1, close := 100, signal := some 0 }] (initState 100)).shares = 1 ∧
    (simulateTrading 0 100 1 0 [{ time := 0, close := 100, signal := some 1 },
        { time := 1, close := 100, signal := some 0 }]).trades.map TradeRecord.exit_reason
      = [ExitReason.end_of_period] ∧
    ¬ (simulateTrading 0 100 1 0 [{ time := 0, close := 100, signal := some 1 },
        { time := 1, close := 100, signal := some 0 }]).shares = 0 ∧
    (simulateTrading 0 100 1 0 [{ time := 0, close := 100, signal := some 1 },
        { time := 1, close := 100, signal := some 0 }]).current_position.isSome = true := by
  with_unfolding_all decide

/-- C1 amended: if a position is still open after the last bar, the
simulator emits a TradeRecord closed at the last bar's close with
`exit_reason = end_of_period` and credits the net proceeds to cash — but
it does not reset the `shares` count or destroy the OpenPosition: the
final state keeps its positive share count, and the run is flat only in
the sense that the discarded state no longer affects the outputs. -/
theorem C1_forced_liquidation_amended (tc psize sl capital : ℚ) (rows : List SigRow)
    (hne : rows ≠ [])
    (hopen : 0 < (runLoop tc psize sl rows (initState capital)).shares) :
    ∃ p b,
      (runLoop tc psize sl rows (initState capital)).current_position = some p ∧
      rows.getLast? = some b ∧
      (simulateTrading tc capital psize sl rows).trades
        = (runLoop tc psize sl rows (initState capital)).trades
            ++ [endOfPeriodTrade b p (runLoop tc psize sl rows (initState capital)).shares] ∧
      (endOfPeriodTrade b p (runLoop tc psize sl rows (initState capital)).shares).exit_reason
        = ExitReason.end_of_period ∧
      (endOfPeriodTrade b p (runLoop tc psize sl rows (initState capital)).shares).exit_price
        = b.close ∧
      (simulateTrading tc capital psize sl rows).cash
        = (runLoop tc psize sl rows (initState capital)).cash
            + ((runLoop tc psize sl rows (initState capital)).shares : ℚ) * b.close * (1 - tc) ∧
      (simulateTrading tc capital psize sl rows).shares
        = (runLoop tc psize sl rows (initState capital)).shares ∧
      (simulateTrading tc capital psize sl rows).current_position = some p ∧
      0 < (simulateTrading tc capital psize sl rows).shares := by
  obtain ⟨p, hcp⟩ : ∃ p,
      (runLoop tc psize sl rows (initState capital)).current_position = some p := by
    cases hcp : (runLoop tc psize sl rows (initState capital)).current_position with
    | none =>
        have h0 := (posInv_runLoop tc psize sl rows (initState capital)
          (posInv_initState capital)).2.1 hcp
        omega
    | some p => exact ⟨p, rfl⟩
  obtain ⟨b, hb⟩ : ∃ b, rows.getLast? = some b := by
    cases hgl : rows.getLast? with
    | none => exact absurd (List.getLast?_eq_none_iff.mp hgl) hne
    | some b => exact ⟨b, rfl⟩
  have hstate : simulateTrading tc capital psize sl rows =
      { cash := (runLoop tc psize sl rows (initState capital)).cash
          + ((runLoop tc psize sl rows (initState capital)).shares : ℚ)
              * b.close * (1 - tc),
        shares := (runLoop tc psize sl rows (initState capital)).shares,
        current_position := some p,
        trades := (runLoop tc psize sl rows (initState capital)).trades
          ++ [endOfPeriodTrade b p (runLoop tc psize sl rows (initState capital)).shares],
        portfolio := (runLoop tc psize sl rows (initState capital)).portfolio } := by
    unfold simulateTrading closeEndOfPeriod
    rw [if_pos hopen, hcp, hb]
  refine ⟨p, b, hcp, hb, ?_, rfl, rfl, ?_, ?_, ?_, ?_⟩
  · rw [hstate]
  · rw [hstate]
  · rw [hstate]
  · rw [hstate]
  · rw [hstate]
    exact hopen

/-- Witness for C1 amended, at the 2-bar buy-and-hold run: the final
state's share count is still positive after the forced liquidation. -/
theorem C1_forced_liquidation_amended_witness :
    0 < (simulateTrading 0 100 1 0 [{ time := 0, close := 100, signal := some 1 },
        { time := 1, close := 100, signal := some 0 }]).shares := by
  obtain ⟨p, b, -, -, -, -, -, -, -, -, h⟩ :=
    C1_forced_liquidation_amended 0 1 0 100
      [{ time := 0, close := 100, signal := some 1 },
       { time := 1, close := 100, signal := some 0 }] (by simp) (by with_unfolding_all decide)
  exact h

/-- C2 counterexample: rsi strategy with period 2, thresholds 30/70, on
closes [10, 9, 8, 9].  At the last bar rsi = 50, strictly between the
thresholds, and the previous bar's position is 1 — hysteresis would keep
the position at 1, but the code emits 0. -/
theorem C2_rsi_hysteresis_counterexample :
    (Indicators.rsi [10, 9, 8, 9] 2).getD 3 none = some 50 ∧
    (30 : ℚ) < 50 ∧ (50 : ℚ) < 70 ∧
    (rsiPositions [10, 9, 8, 9] 2 30 70).getD 2 0 = 1 ∧
    (rsiPositions [10, 9, 8, 9] 2 30 70).getD 3 0 = 0 := by
  with_unfolding_all decide

/-- C2 amended: the rsi strategy has no hysteresis.  At every bar the
position is 1 exactly when rsi is defined, below oversold and not above
overbought; it is 0 when rsi is above overbought; and it is 0 — not the
previous bar's position — when rsi lies between the thresholds or is
undefined. -/
theorem C2_rsi_no_hysteresis_amended (closes : List ℚ) (period : ℕ)
    (oversold overbought : ℚ) (i : ℕ) :
    (rsiPositions closes period oversold overbought).getD i 0 =
      match (Indicators.rsi closes period).getD i none with
      | some rv => if overbought < rv then 0 else if rv < oversold then 1 else 0
      | none => 0 := by
  unfold rsiPositions
  simp only [List.getD_eq_getElem?_getD, List.getElem?_map]
  cases hx : (Indicators.rsi closes period)[i]? with
  | none => rfl
  | some rv => cases rv <;> rfl

/-- C4 counterexample: `run_backtest` performs no capital validation.
With a known strategy, an existing stock and a nonempty price window,
a backtest with initial capital −5 raises no error: it proceeds into the
simulation (producing one equity point per bar) and returns a result. -/
theorem C4_invalid_capital_counterexample :
    (runBacktest 0 (some { strategy_type := "ma_crossover",
                           parameters := { short_window := 1, long_window := 2 } }) true
        [{ time := 0, close := 100 }, { time := 1, close := 101 }] (-5)).isOk = true ∧
    (runBacktest 0 (some { strategy_type := "ma_crossover",
                           parameters := { short_window := 1, long_window := 2 } }) true
        [{ time := 0, close := 100 }, { time := 1, close := 101 }] (-5)).toOption.map
        (fun s => s.portfolio.length) = some 2 := by
  with_unfolding_all exact ⟨rfl, rfl⟩

/-- C4 amended: the validations on the way to the simulator are strategy
existence, stock existence, nonempty price data and a known strategy
type; the initial capital is never checked, so a backtest with capital
≤ 0 reaches `_simulate_trading` and completes normally. -/
theorem C4_no_capital_validation_amended (tc : ℚ) (strat : StrategyRow)
    (bars : List Bar) (capital : ℚ)
    (hty : strat.strategy_type = "ma_crossover" ∨ strat.strategy_type = "rsi" ∨
           strat.strategy_type = "macd" ∨ strat.strategy_type = "combined")
    (hbars : bars ≠ []) (hcap : capital ≤ 0) :
    ∃ rows, generateSignals strat.strategy_type strat.parameters bars = .ok rows ∧
      runBacktest tc (some strat) true bars capital =
        .ok (simulateTrading tc capital strat.position_size strat.stop_loss rows) := by
  obtain ⟨rows, hrows⟩ : ∃ rows,
      generateSignals strat.strategy_type strat.parameters bars = .ok rows := by
    unfold generateSignals
    rcases hty with h | h | h | h <;> rw [h] <;> exact ⟨_, rfl⟩
  refine ⟨rows, hrows, ?_⟩
  simp [runBacktest, hrows, hbars]

/-- Witness for C4 amended at capital −5 with a two-bar window and the
ma_crossover strategy. -/
theorem C4_no_capital_validation_amended_witness :
    ∃ rows, generateSignals "ma_crossover" { short_window := 1, long_window := 2 }
        [{ time := 0, close := 100 }, { time := 1, close := 101 }] = .ok rows ∧
      runBacktest 0 (some { strategy_type := "ma_crossover",
                            parameters := { short_window := 1, long_window := 2 },
                            position_size := 95/100, stop_loss := 0 }) true
          [{ time := 0, close := 100 }, { time := 1, close := 101 }] (-5) =
        .ok (simulateTrading 0 (-5) (95/100) 0 rows) :=
  C4_no_capital_validation_amended 0
    { strategy_type := "ma_crossover", parameters := { short_window := 1, long_window := 2 },
      position_size := 95/100, stop_loss := 0 }
    [{ time := 0, close := 100 }, { time := 1, close := 101 }] (-5)
    (Or.inl rfl) (by simp) (by norm_num)

/-- C8: the metrics calculator resolves degenerate inputs to zero — the
sharpe ratio is 0 whenever the standard deviation of per-bar returns is 0
or undefined, the profit factor is 0 when there are no losing trades, and
every trade-derived statistic is exactly 0 for an empty trade list. -/
theorem C8_degenerate_metrics_zero (sqrtFn : ℚ → ℚ) (totals : List ℚ)
    (trades : List TradeRecord)
    (hstd : seriesStd sqrtFn (pctChange totals) = none ∨
            seriesStd sqrtFn (pctChange totals) = some 0)
    (hnoloss : ∀ t ∈ trades, 0 ≤ t.pnl) :
    sharpeRatio sqrtFn totals = 0 ∧
    (calculateTradeStats trades).profit_factor = 0 ∧
    calculateTradeStats [] =
      { total_trades := 0, winning_trades := 0, losing_trades := 0, win_rate := 0,
        avg_win := 0, avg_loss := 0, profit_factor := 0 } := by
  refine ⟨?_, ?_, rfl⟩
  · rcases hstd with h | h <;>
      rcases hm : seriesMean (pctChange totals) with _ | m <;>
        simp [sharpeRatio, h, hm]
  · unfold calculateTradeStats
    split_ifs with he
    · rfl
    · have hlos : trades.filter (fun t => decide (t.pnl < 0)) = [] := by
        rw [List.filter_eq_nil_iff]
        intro t ht
        simp only [decide_eq_true_eq, not_lt]
        exact hnoloss t ht
      simp [hlos]

/-- Witness for C8: a flat 3-point equity curve (stddev 0) and a
single-winner trade list (no losers). -/
theorem C8_degenerate_metrics_zero_witness :
    sharpeRatio id [1, 1, 1] = 0 ∧
    (calculateTradeStats [{ entry_date := 0, entry_price := 1, exit_date := 1,
                            exit_price := 2, quantity := 1, transaction_cost := 0, pnl := 1,
                            pnl_percentage := 1, hold_period_days := 1,
                            exit_reason := ExitReason.signal }]).profit_factor = 0 ∧
    calculateTradeStats [] =
      { total_trades := 0, winning_trades := 0, losing_trades := 0, win_rate := 0,
        avg_win := 0, avg_loss := 0, profit_factor := 0 } :=
  C8_degenerate_metrics_zero id [1, 1, 1]
    [{ entry_date := 0, entry_price := 1, exit_date := 1, exit_price := 2, quantity := 1,
       transaction_cost := 0, pnl := 1, pnl_percentage := 1, hold_period_days := 1,
       exit_reason := ExitReason.signal }]
    (Or.inr (by with_unfolding_all decide)) (by with_unfolding_all decide)

/-- The five-bar price series of the spec's ma_crossover scenario. -/
def scenarioBars : List Bar :=
  [{ time := 0, close := 100 }, { time := 1, close := 102 }, { time := 2, close := 99 },
   { time := 3, close := 101 }, { time := 4, close := 105 }]

/-- The signal rows the engine produces for the scenario with
short_window = 1, long_window = 2: positions [0,1,0,1,1], signals
[NaN, +1, −1, +1, 0]. -/
def scenarioRows : List SigRow :=
  [{ time := 0, close := 100, signal := none },
   { time := 1, close := 102, signal := some 1 },
   { time := 2, close := 99, signal := some (-1) },
   { time := 3, close := 101, signal := some 1 },
   { time := 4, close := 105, signal := some 0 }]

set_option maxRecDepth 100000 in
/-- C3 counterexample: on the 5-bar scenario the code executes TWO buys
(not one), and the final total equity is 1009 (not 1050), with total
return 9/1000 (not ≈ 0.05). -/
theorem C3_scenario_counterexample :
    generateSignals "ma_crossover" { short_window := 1, long_window := 2 } scenarioBars
      = .ok scenarioRows ∧
    (simulateTrading 0 1000 1 0 scenarioRows).trades.length = 2 ∧
    ¬ (simulateTrading 0 1000 1 0 scenarioRows).trades.length = 1 ∧
    ((simulateTrading 0 1000 1 0 scenarioRows).portfolio.map EquityPoint.total).getLast?.getD 0
      = 1009 ∧
    ¬ ((simulateTrading 0 1000 1 0 scenarioRows).portfolio.map
        EquityPoint.total).getLast?.getD 0 = 1050 ∧
    totalReturn 1000 ((simulateTrading 0 1000 1 0 scenarioRows).portfolio.map EquityPoint.total)
      = 9 / 1000 := by
  refine ⟨by with_unfolding_all rfl, ?_⟩
  with_unfolding_all decide

set_option maxRecDepth 100000 in
/-- C3 amended: the actual run on the scenario: the short SMA first
exceeds the long SMA at bar 2 (close 102), a sell signal closes that
position at bar 3 (close 99, pnl −27), a second buy occurs at bar 4
(close 101), and that position is forced closed at bar 5 (close 105,
`exit_reason = end_of_period`, pnl 36).  Because shares are integral
(9 shares per entry), the final total equity is 1009 and the total
return is 0.009. -/
theorem C3_scenario_amended :
    generateSignals "ma_crossover" { short_window := 1, long_window := 2 } scenarioBars
      = .ok scenarioRows ∧
    (simulateTrading 0 1000 1 0 scenarioRows).trades.map TradeRecord.entry_date = [1, 3] ∧
    (simulateTrading 0 1000 1 0 scenarioRows).trades.map TradeRecord.exit_date = [2, 4] ∧
    (simulateTrading 0 1000 1 0 scenarioRows).trades.map TradeRecord.exit_reason
      = [ExitReason.signal, ExitReason.end_of_period] ∧
    (simulateTrading 0 1000 1 0 scenarioRows).trades.map TradeRecord.exit_price = [99, 105] ∧
    (simulateTrading 0 1000 1 0 scenarioRows).trades.map TradeRecord.quantity = [9, 9] ∧
    (simulateTrading 0 1000 1 0 scenarioRows).trades.map TradeRecord.pnl = [-27, 36] ∧
    (simulateTrading 0 1000 1 0 scenarioRows).portfolio.map EquityPoint.total
      = [1000, 1000, 973, 973, 1009] ∧
    (simulateTrading 0 1000 1 0 scenarioRows).cash = 1009 ∧
    totalReturn 1000 ((simulateTrading 0 1000 1 0 scenarioRows).portfolio.map EquityPoint.total)
      = 9 / 1000 := by
  refine ⟨by with_unfolding_all rfl, ?_⟩
  with_unfolding_all decide

/-! ### Lemmas for the rsi degenerate cases (C9) -/

theorem zipWith_sub_replicate (c : ℚ) : ∀ n k,
    List.zipWith (fun a b => a - b) (List.replicate n c) (List.replicate k c)
      = List.replicate (min n k) 0
  | 0, _ => by simp
  | _ + 1, 0 => by simp
  | n + 1, k + 1 => by
      simp only [List.replicate_succ, List.zipWith_cons_cons, sub_self]
      rw [zipWith_sub_replicate c n k]
      rw [Nat.succ_min_succ, List.replicate_succ]

theorem rsiGains_replicate (n : ℕ) (c : ℚ) :
    Indicators.rsiGains (List.replicate n c) = List.replicate n 0 := by
  cases n with
  | zero => rfl
  | succ m =>
      rw [List.replicate_succ]
      show 0 :: (List.zipWith (fun a b => a - b) (List.replicate m c)
          (c :: List.replicate m c)).map (fun d => if 0 < d then d else 0)
        = List.replicate (m + 1) 0
      rw [← List.replicate_succ, zipWith_sub_replicate]
      have hmin : min m (m + 1) = m := by omega
      rw [hmin, List.map_replicate, List.replicate_succ]
      simp

theorem rsiLosses_replicate (n : ℕ) (c : ℚ) :
    Indicators.rsiLosses (List.replicate n c) = List.replicate n 0 := by
  cases n with
  | zero => rfl
  | succ m =>
      rw [List.replicate_succ]
      show 0 :: (List.zipWith (fun a b => a - b) (List.replicate m c)
          (c :: List.replicate m c)).map (fun d => if d < 0 then -d else 0)
        = List.replicate (m + 1) 0
      rw [← List.replicate_succ, zipWith_sub_replicate]
      have hmin : min m (m + 1) = m := by omega
      rw [hmin, List.map_replicate, List.replicate_succ]
      simp

theorem rollingMean_replicate_zero (m w : ℕ) :
    rollingMean (List.replicate m (0 : ℚ)) w
      = (List.range m).map (fun i => if i + 1 < w then none else some 0) := by
  unfold rollingMean
  rw [List.length_replicate]
  refine List.map_congr_left fun i _ => ?_
  split_ifs with h
  · rfl
  · rw [List.take_replicate, List.drop_replicate, List.sum_replicate]
    simp

theorem rsi_replicate (n : ℕ) (c : ℚ) (period : ℕ) :
    Indicators.rsi (List.replicate n c) period = List.replicate n none := by
  unfold Indicators.rsi Indicators.rsiGainAvg Indicators.rsiLossAvg
  rw [rsiGains_replicate, rsiLosses_replicate, rollingMean_replicate_zero]
  rw [List.zipWith_map_left, List.zipWith_map_right, List.zipWith_same]
  rw [List.eq_replicate_iff]
  constructor
  · simp
  · intro b hb
    simp only [List.mem_map, List.mem_range] at hb
    obtain ⟨i, -, hbi⟩ := hb
    rw [← hbi]
    split_ifs <;> simp

theorem rsiPositions_replicate (n : ℕ) (c : ℚ) (period : ℕ) (ov ob : ℚ) :
    rsiPositions (List.replicate n c) period ov ob = List.replicate n 0 := by
  unfold rsiPositions
  rw [rsi_replicate, List.map_replicate]

/-- C9: on a constant price series, every rsi value is undefined and the
rsi Signal Generator emits position 0 at every bar without raising (it is
a total function of its inputs); and whenever the rolling average loss is
zero while the rolling average gain is positive, rsi evaluates to exactly
100 rather than crashing on the zero division. -/
theorem C9_rsi_degenerate_safety (n : ℕ) (c : ℚ) (period : ℕ) (ov ob : ℚ)
    (closes : List ℚ) (i : ℕ) (g : ℚ)
    (hl : (Indicators.rsiLossAvg closes period).getD i none = some 0)
    (hg : (Indicators.rsiGainAvg closes period).getD i none = some g)
    (hgpos : 0 < g) :
    Indicators.rsi (List.replicate n c) period = List.replicate n none ∧
    rsiPositions (List.replicate n c) period ov ob = List.replicate n 0 ∧
    (Indicators.rsi closes period).getD i none = some 100 := by
  refine ⟨rsi_replicate n c period, rsiPositions_replicate n c period ov ob, ?_⟩
  have hg' : (Indicators.rsiGainAvg closes period)[i]? = some (some g) := by
    rcases hx : (Indicators.rsiGainAvg closes period)[i]? with _ | v
    · rw [List.getD_eq_getElem?_getD, hx] at hg
      simp at hg
    · rw [List.getD_eq_getElem?_getD, hx] at hg
      simp only [Option.getD_some] at hg
      rw [hg]
  have hl' : (Indicators.rsiLossAvg closes period)[i]? = some (some 0) := by
    rcases hx : (Indicators.rsiLossAvg closes period)[i]? with _ | v
    · rw [List.getD_eq_getElem?_getD, hx] at hl
      simp at hl
    · rw [List.getD_eq_getElem?_getD, hx] at hl
      simp only [Option.getD_some] at hl
      rw [hl]
  rw [List.getD_eq_getElem?_getD]
  unfold Indicators.rsi
  rw [List.getElem?_zipWith, hg', hl']
  simp [ne_of_gt hgpos]

/-- Witness for C9: constant series [5,5,5] with period 2 (rsi undefined
throughout, positions all 0), and closes [1,2,3] at index 2, where the
average loss is 0 and the average gain is 1 > 0, giving rsi = 100. -/
theorem C9_rsi_degenerate_safety_witness :
    Indicators.rsi (List.replicate 3 5) 2 = List.replicate 3 none ∧
    rsiPositions (List.replicate 3 5) 2 30 70 = List.replicate 3 0 ∧
    (Indicators.rsi [1, 2, 3] 2).getD 2 none = some 100 :=
  C9_rsi_degenerate_safety 3 5 2 30 70 [1, 2, 3] 2 1
    (by with_unfolding_all decide) (by with_unfolding_all decide) (by norm_num)

/-! ### The per-bar state trace (for C6 and C7) -/

/-- State of the simulation loop after the first `k` bars of `rows` have
been processed. -/
def stateAfter (tc psize sl capital : ℚ) (rows : List SigRow) (k : ℕ) : SimState :=
  runLoop tc psize sl (rows.take k) (initState capital)

theorem runLoop_append (tc psize sl : ℚ) (l1 l2 : List SigRow) (s : SimState) :
    runLoop tc psize sl (l1 ++ l2) s = runLoop tc psize sl l2 (runLoop tc psize sl l1 s) :=
  List.foldl_append _ _ _ _

theorem stateAfter_succ (tc psize sl capital : ℚ) (rows : List SigRow) (k : ℕ)
    (hk : k < rows.length) :
    stateAfter tc psize sl capital rows (k + 1)
      = stepBar tc psize sl (rows.get ⟨k, hk⟩) (stateAfter tc psize sl capital rows k) := by
  unfold stateAfter
  rw [List.take_succ, List.getElem?_eq_getElem hk, runLoop_append]
  rfl

theorem stateAfter_stable (tc psize sl capital : ℚ) (rows : List SigRow) (k : ℕ)
    (hk : rows.length ≤ k) :
    stateAfter tc psize sl capital rows k
      = stateAfter tc psize sl capital rows rows.length := by
  unfold stateAfter
  rw [List.take_of_length_le hk, List.take_length]

theorem stateAfter_portfolio_length (tc psize sl capital : ℚ) (rows : List SigRow) : ∀ k : ℕ,
    k ≤ rows.length → (stateAfter tc psize sl capital rows k).portfolio.length = k := by
  intro k
  induction k with
  | zero => intro _; rfl
  | succ m ih =>
      intro hk
      have hm : m < rows.length := hk
      rw [stateAfter_succ tc psize sl capital rows m hm, stepBar_portfolio]
      simp [ih (le_of_lt hm)]

theorem closeEndOfPeriod_portfolio (tc : ℚ) (rows : List SigRow) (s : SimState) :
    (closeEndOfPeriod tc rows s).portfolio = s.portfolio := by
  unfold closeEndOfPeriod
  split
  · split <;> rfl
  · rfl

theorem simulateTrading_portfolio (tc capital psize sl : ℚ) (rows : List SigRow) :
    (simulateTrading tc capital psize sl rows).portfolio
      = (stateAfter tc psize sl capital rows rows.length).portfolio := by
  unfold simulateTrading stateAfter
  rw [closeEndOfPeriod_portfolio, List.take_length]

theorem stateAfter_portfolio_getElem (tc psize sl capital : ℚ) (rows : List SigRow)
    (k : ℕ) : ∀ m : ℕ, k + 1 ≤ m → m ≤ rows.length →
    (stateAfter tc psize sl capital rows m).portfolio[k]?
      = (stateAfter tc psize sl capital rows (k + 1)).portfolio[k]? := by
  intro m
  induction m with
  | zero => omega
  | succ j ih =>
      intro h1 h2
      rcases Nat.lt_or_ge j (k + 1) with hj | hj
      · have : j = k := by omega
        subst this
        rfl
      · have hjlen : j < rows.length := by omega
        have hlen : k < (stateAfter tc psize sl capital rows j).portfolio.length := by
          rw [stateAfter_portfolio_length tc psize sl capital rows j (by omega)]
          omega
        rw [stateAfter_succ tc psize sl capital rows j hjlen, stepBar_portfolio,
          List.getElem?_append_left hlen]
        exact ih (by omega) (by omega)

theorem stateAfter_portfolio_last (tc psize sl capital : ℚ) (rows : List SigRow) (k : ℕ)
    (hk : k < rows.length) :
    (stateAfter tc psize sl capital rows (k + 1)).portfolio[k]?
      = some { time := (rows.get ⟨k, hk⟩).time,
               cash := (stateAfter tc psize sl capital rows (k + 1)).cash,
               holdings := ((stateAfter tc psize sl capital rows (k + 1)).shares : ℚ)
                 * (rows.get ⟨k, hk⟩).close,
               total := (stateAfter tc psize sl capital rows (k + 1)).cash
                 + ((stateAfter tc psize sl capital rows (k + 1)).shares : ℚ)
                     * (rows.get ⟨k, hk⟩).close } := by
  have hlen : (stateAfter tc psize sl capital rows k).portfolio.length = k :=
    stateAfter_portfolio_length tc psize sl capital rows k (le_of_lt hk)
  rw [stateAfter_succ tc psize sl capital rows k hk, stepBar_portfolio]
  have hcat := List.getElem?_concat_length
    ((stateAfter tc psize sl capital rows k).portfolio)
    { time := (rows.get ⟨k, hk⟩).time,
      cash := (stepBar tc psize sl (rows.get ⟨k, hk⟩)
        (stateAfter tc psize sl capital rows k)).cash,
      holdings := ((stepBar tc psize sl (rows.get ⟨k, hk⟩)
        (stateAfter tc psize sl capital rows k)).shares : ℚ) * (rows.get ⟨k, hk⟩).close,
      total := (stepBar tc psize sl (rows.get ⟨k, hk⟩)
          (stateAfter tc psize sl capital rows k)).cash
        + ((stepBar tc psize sl (rows.get ⟨k, hk⟩)
            (stateAfter tc psize sl capital rows k)).shares : ℚ)
            * (rows.get ⟨k, hk⟩).close }
  rw [hlen] at hcat
  exact hcat

/-- C7: the EquityPoint recorded after processing bar `k` is exactly
`{time, cash, holdings = shares × close, total = cash + holdings}` for the
post-fill `cash` and `shares` of that bar (the state after `k + 1` bars). -/
theorem C7_equity_point_consistency (tc psize sl capital : ℚ) (rows : List SigRow) (k : ℕ)
    (hk : k < rows.length) :
    (simulateTrading tc capital psize sl rows).portfolio[k]?
      = some { time := (rows.get ⟨k, hk⟩).time,
               cash := (stateAfter tc psize sl capital rows (k + 1)).cash,
               holdings := ((stateAfter tc psize sl capital rows (k + 1)).shares : ℚ)
                 * (rows.get ⟨k, hk⟩).close,
               total := (stateAfter tc psize sl capital rows (k + 1)).cash
                 + ((stateAfter tc psize sl capital rows (k + 1)).shares : ℚ)
                     * (rows.get ⟨k, hk⟩).close } := by
  rw [simulateTrading_portfolio,
    stateAfter_portfolio_getElem tc psize sl capital rows k rows.length hk (le_refl _)]
  exact stateAfter_portfolio_last tc psize sl capital rows k hk

/-- Witness for C7 at bar 2 of a concrete 2-bar run: capital 25, buy at
close 12 fills 2 shares, so the recorded point is
`{time 1, cash 1, holdings 24, total 25}`. -/
theorem C7_equity_point_consistency_witness :
    (simulateTrading 0 25 1 0 [{ time := 0, close := 10, signal := none },
        { time := 1, close := 12, signal := some 1 }]).portfolio[1]?
      = some { time := (([{ time := 0, close := 10, signal := none },
                 { time := 1, close := 12, signal := some 1 }] : List SigRow).get ⟨1, by decide⟩).time,
               cash := (stateAfter 0 1 0 25 [{ time := 0, close := 10, signal := none },
                 { time := 1, close := 12, signal := some 1 }] 2).cash,
               holdings := ((stateAfter 0 1 0 25 [{ time := 0, close := 10, signal := none },
                   { time := 1, close := 12, signal := some 1 }] 2).shares : ℚ)
                 * (([{ time := 0, close := 10, signal := none },
                     { time := 1, close := 12, signal := some 1 }] : List SigRow).get ⟨1, by decide⟩).close,
               total := (stateAfter 0 1 0 25 [{ time := 0, close := 10, signal := none },
                   { time := 1, close := 12, signal := some 1 }] 2).cash
                 + ((stateAfter 0 1 0 25 [{ time := 0, close := 10, signal := none },
                     { time := 1, close := 12, signal := some 1 }] 2).shares : ℚ)
                     * (([{ time := 0, close := 10, signal := none },
                         { time := 1, close := 12, signal := some 1 }] : List SigRow).get ⟨1, by decide⟩).close } :=
  C7_equity_point_consistency 0 1 0 25
    [{ time := 0, close := 10, signal := none }, { time := 1, close := 12, signal := some 1 }]
    1 (by decide)

/-! ### The money invariants (C6) -/

/-- A cash change across one step is backed by a fill at that bar's close:
either cash is unchanged, or a buy of `q > 0` shares debited
`q × close × (1 + tc)`, or a sell of the whole position credited
`shares × close × (1 − tc)`. -/
def CashBackedByFill (tc c : ℚ) (s s' : SimState) : Prop :=
  s'.cash = s.cash ∨
  (∃ q : ℤ, 0 < q ∧ s'.shares = q ∧ s'.cash = s.cash - (q : ℚ) * (c * (1 + tc))) ∨
  (s'.shares = 0 ∧ s'.cash = s.cash + (s.shares : ℚ) * (c * (1 - tc)))

theorem stepBar_cash_backed (tc psize sl : ℚ) (r : SigRow) (s : SimState) :
    CashBackedByFill tc r.close s (stepBar tc psize sl r s) := by
  unfold CashBackedByFill
  rw [stepBar_cash, stepBar_shares]
  unfold fillPhase
  split_ifs with h1 h2
  · simp only [buyFill]
    split_ifs with hq
    · right; left
      exact ⟨_, hq, rfl, rfl⟩
    · left; rfl
  · cases hcp : s.current_position with
    | none =>
        left
        simp [sellFill, hcp]
    | some p =>
        right; right
        simp [sellFill, hcp]
  · left; rfl

/-- Money invariant: nonnegative cash and a nonnegative share count. -/
def MoneyInv (s : SimState) : Prop := 0 ≤ s.cash ∧ 0 ≤ s.shares

theorem moneyInv_stepBar (tc psize sl : ℚ) (r : SigRow) (s : SimState)
    (hc : 0 < r.close) (hps0 : 0 < psize) (hps1 : psize ≤ 1)
    (htc0 : 0 ≤ tc) (htc1 : tc ≤ 1) (h : MoneyInv s) :
    MoneyInv (stepBar tc psize sl r s) := by
  obtain ⟨hcash, hsh⟩ := h
  have hfill : MoneyInv (fillPhase tc psize sl r s) := by
    unfold fillPhase
    split_ifs with h1 h2
    · simp only [buyFill]
      split_ifs with hq
      · constructor
        · have hcps : (0 : ℚ) < r.close * (1 + tc) := by
            apply mul_pos hc
            linarith
          have harg : (0 : ℚ) ≤ s.cash * psize / (r.close * (1 + tc)) :=
            div_nonneg (mul_nonneg hcash hps0.le) hcps.le
          have hle : ((ratTrunc (s.cash * psize / (r.close * (1 + tc)))) : ℚ)
              ≤ s.cash * psize / (r.close * (1 + tc)) := ratTrunc_le_self harg
          have hmul : ((ratTrunc (s.cash * psize / (r.close * (1 + tc)))) : ℚ)
              * (r.close * (1 + tc)) ≤ s.cash * psize := by
            calc ((ratTrunc (s.cash * psize / (r.close * (1 + tc)))) : ℚ)
                  * (r.close * (1 + tc))
                ≤ s.cash * psize / (r.close * (1 + tc)) * (r.close * (1 + tc)) :=
                  mul_le_mul_of_nonneg_right hle hcps.le
              _ = s.cash * psize := div_mul_cancel₀ _ hcps.ne'
          have hps : s.cash * psize ≤ s.cash := mul_le_of_le_one_right hcash hps1
          show (0 : ℚ) ≤ s.cash - _ * (r.close * (1 + tc))
          linarith
        · exact le_of_lt hq
      · exact ⟨hcash, hsh⟩
    · cases hcp : s.current_position with
      | none => simpa [sellFill, hcp] using And.intro hcash hsh
      | some p =>
          simp only [sellFill, hcp]
          constructor
          · have hpr : (0 : ℚ) ≤ (s.shares : ℚ) * (r.close * (1 - tc)) := by
              apply mul_nonneg
              · exact_mod_cast hsh
              · apply mul_nonneg hc.le
                linarith
            show (0 : ℚ) ≤ s.cash + (s.shares : ℚ) * (r.close * (1 - tc))
            linarith
          · exact le_refl 0
    · exact ⟨hcash, hsh⟩
  exact hfill

theorem moneyInv_stateAfter (tc psize sl capital : ℚ) (rows : List SigRow)
    (hcap : 0 < capital) (hps0 : 0 < psize) (hps1 : psize ≤ 1)
    (htc0 : 0 ≤ tc) (htc1 : tc ≤ 1)
    (hclose : ∀ r ∈ rows, 0 < r.close) : ∀ k : ℕ,
    MoneyInv (stateAfter tc psize sl capital rows k) := by
  intro k
  induction k with
  | zero => exact ⟨le_of_lt hcap, le_refl 0⟩
  | succ m ih =>
      rcases Nat.lt_or_ge m rows.length with hm | hm
      · rw [stateAfter_succ tc psize sl capital rows m hm]
        exact moneyInv_stepBar tc psize sl _ _
          (hclose _ (List.get_mem rows m hm)) hps0 hps1 htc0 htc1 ih
      · rw [stateAfter_stable tc psize sl capital rows (m + 1) (by omega),
          ← stateAfter_stable tc psize sl capital rows m hm]
        exact ih

theorem closeEndOfPeriod_cash (tc : ℚ) (rows : List SigRow) (s : SimState) :
    (closeEndOfPeriod tc rows s).cash = s.cash ∨
    ∃ b, rows.getLast? = some b ∧ 0 < s.shares ∧
      (closeEndOfPeriod tc rows s).cash = s.cash + (s.shares : ℚ) * b.close * (1 - tc) := by
  unfold closeEndOfPeriod
  split_ifs with hsh
  · cases hcp : s.current_position with
    | none => left; rfl
    | some p =>
        cases hgl : rows.getLast? with
        | none => left; rfl
        | some b => right; exact ⟨b, rfl, hsh, rfl⟩
  · left; rfl

/-- C6: with positive initial capital, a position-size fraction in (0,1],
a transaction-cost rate in [0,1] and positive closes, the simulator keeps
`cash ≥ 0` and `shares ≥ 0` after every bar, every cash change across a
bar is backed by a buy or sell fill at that bar's close, the final cash
(after any forced liquidation) is still nonnegative, and the liquidation
itself only credits a sell fill at the last bar's close. -/
theorem C6_no_negative_state (tc psize sl capital : ℚ) (rows : List SigRow)
    (hcap : 0 < capital) (hps0 : 0 < psize) (hps1 : psize ≤ 1)
    (htc0 : 0 ≤ tc) (htc1 : tc ≤ 1) (hclose : ∀ r ∈ rows, 0 < r.close) :
    (∀ k : ℕ, 0 ≤ (stateAfter tc psize sl capital rows k).cash
        ∧ 0 ≤ (stateAfter tc psize sl capital rows k).shares) ∧
    (∀ k : ℕ, ∀ hk : k < rows.length,
        CashBackedByFill tc (rows.get ⟨k, hk⟩).close
          (stateAfter tc psize sl capital rows k)
          (stateAfter tc psize sl capital rows (k + 1))) ∧
    0 ≤ (simulateTrading tc capital psize sl rows).cash ∧
    ((simulateTrading tc capital psize sl rows).cash
        = (stateAfter tc psize sl capital rows rows.length).cash ∨
      ∃ b, rows.getLast? = some b ∧
        (simulateTrading tc capital psize sl rows).cash
          = (stateAfter tc psize sl capital rows rows.length).cash
            + ((stateAfter tc psize sl capital rows rows.length).shares : ℚ)
                * b.close * (1 - tc)) := by
  have hmoney := moneyInv_stateAfter tc psize sl capital rows hcap hps0 hps1 htc0 htc1 hclose
  have hsim : simulateTrading tc capital psize sl rows
      = closeEndOfPeriod tc rows (stateAfter tc psize sl capital rows rows.length) := by
    unfold simulateTrading stateAfter
    rw [List.take_length]
  have hclosecash := closeEndOfPeriod_cash tc rows
    (stateAfter tc psize sl capital rows rows.length)
  refine ⟨hmoney, ?_, ?_, ?_⟩
  · intro k hk
    rw [stateAfter_succ tc psize sl capital rows k hk]
    exact stepBar_cash_backed tc psize sl _ _
  · rw [hsim]
    rcases hclosecash with h | ⟨b, hb, -, h⟩
    · rw [h]
      exact (hmoney rows.length).1
    · rw [h]
      have hbmem : b ∈ rows := by
        have hx : b ∈ rows.getLast? := by
          rw [hb]
          rfl
        obtain ⟨hne2, heq⟩ := List.mem_getLast?_eq_getLast hx
        rw [heq]
        exact List.getLast_mem hne2
      have hpr : (0 : ℚ) ≤ ((stateAfter tc psize sl capital rows rows.length).shares : ℚ)
          * b.close * (1 - tc) := by
        apply mul_nonneg
        · apply mul_nonneg
          · exact_mod_cast (hmoney rows.length).2
          · exact (hclose b hbmem).le
        · linarith
      have := (hmoney rows.length).1
      linarith
  · rw [hsim]
    rcases hclosecash with h | ⟨b, hb, -, h⟩
    · exact Or.inl h
    · exact Or.inr ⟨b, hb, h⟩

/-- Witness for C6 on a one-bar run: capital 10, close 5, buy signal. -/
theorem C6_no_negative_state_witness :
    0 ≤ (stateAfter 0 1 0 10 [{ time := 0, close := 5, signal := some 1 }] 1).cash ∧
    0 ≤ (stateAfter 0 1 0 10 [{ time := 0, close := 5, signal := some 1 }] 1).shares := by
  obtain ⟨hA, -, -, -⟩ := C6_no_negative_state 0 1 0 10
    [{ time := 0, close := 5, signal := some 1 }]
    (by norm_num) (by norm_num) (by norm_num) (by norm_num) (by norm_num)
    (by
      intro r hr
      simp only [List.mem_singleton] at hr
      subst hr
      norm_num)
  exact hA 1

end AlgoTradeX
